import Mathlib

/-!
Verification development for the slideshow-to-video rendering and muxing
pipeline of the App-google repository.

The embedding below translates the relevant TypeScript source into Lean:

* `encodeSample`, `bufferToWav` embed the `bufferToWav` utility of
  `src/App.tsx` (lines 70-121): the PCM-to-Container Encoder.
* `splitWS`, `wordCount`, `slideDurationMs` embed the duration estimator
  expression `slide.narration.split(/\s+/).length / 180 * 60 * 1000`
  appearing in `src/App.tsx` (line 174) and in `PresentationViewer`
  (`src/unnamed/part_001`, lines 29-37).
* `drawRect` embeds the letterbox/pillarbox geometry of `renderLoop`
  (`src/App.tsx`, lines 196-210): the Frame Compositor.
* `ViewerState` with `scheduleNextSlide`, `runEffect`, `fireTimeout`,
  `handlePlayPause`, `handleAudioEnded` embed the timer-driven Playback
  Scheduler of `PresentationViewer` (`src/unnamed/part_001`, lines 21-97).
* `ExportState` with `exportNextSlide`, `fireExportTimeout`,
  `handleExportAudioEnded` embed the audio-driven scheduler of
  `handleDownload` (`src/App.tsx`, lines 186-238).
* `exportCatch` embeds the error path of `handleDownload`
  (`src/App.tsx`, lines 239-244).

JavaScript numbers are modelled by `JSVal`: an exact rational or NaN.  All
arithmetic performed by the translated code (clamping, adding 0.5,
multiplying by 32767/32768, halving integer differences) is exact in IEEE
double precision on the value ranges involved, so the rational model is
byte-faithful for the encoder.
-/

/-- A JavaScript number as consumed by the encoder: either NaN or a finite
value, modelled exactly as a rational. -/
inductive JSVal where
  | nan : JSVal
  | fin : ℚ → JSVal
deriving DecidableEq

/-- `Math.min(a, x)` for a finite first argument: NaN-propagating minimum. -/
def jsMin (a : ℚ) (x : JSVal) : JSVal :=
  match x with
  | .nan => .nan
  | .fin q => .fin (min a q)

/-- `Math.max(a, x)` for a finite first argument: NaN-propagating maximum. -/
def jsMax (a : ℚ) (x : JSVal) : JSVal :=
  match x with
  | .nan => .nan
  | .fin q => .fin (max a q)

/-- `a + x` for a finite `a`: NaN-propagating addition. -/
def jsAdd (a : ℚ) (x : JSVal) : JSVal :=
  match x with
  | .nan => .nan
  | .fin q => .fin (a + q)

/-- `x * c` for a finite `c`: NaN-propagating multiplication. -/
def jsMul (x : JSVal) (c : ℚ) : JSVal :=
  match x with
  | .nan => .nan
  | .fin q => .fin (q * c)

/-- `x < 0` in JavaScript: false when `x` is NaN. -/
def jsLtZero (x : JSVal) : Bool :=
  match x with
  | .nan => false
  | .fin q => decide (q < 0)

/-- Truncation of a rational toward zero, as performed by JavaScript
`ToInt32` on a finite value before the 32-bit wrap. -/
def truncQ (q : ℚ) : ℤ :=
  if 0 ≤ q then ⌊q⌋ else ⌈q⌉

/-- The JavaScript `| 0` coercion (`ToInt32`): NaN becomes 0; a finite value
is truncated toward zero and wrapped into the signed 32-bit range. -/
def toInt32 (x : JSVal) : ℤ :=
  match x with
  | .nan => 0
  | .fin q => (truncQ q + 2 ^ 31) % 2 ^ 32 - 2 ^ 31

/-- One sample conversion of `bufferToWav` (src/App.tsx lines 102-103):
`sample = Math.max(-1, Math.min(1, channels[i][offset]));
 sample = (0.5 + sample < 0 ? sample * 32768 : sample * 32767) | 0;` -/
def encodeSample (x : JSVal) : ℤ :=
  let sample := jsMax (-1) (jsMin 1 x)
  toInt32 (if jsLtZero (jsAdd (1 / 2) sample) then jsMul sample 32768
           else jsMul sample 32767)

/-- `view.setUint16(pos, n, true)`: the two bytes of `n mod 2^16`,
little-endian. -/
def setUint16 (n : ℕ) : List ℕ :=
  [n % 256, n / 256 % 256]

/-- `view.setUint32(pos, n, true)`: the four bytes of `n mod 2^32`,
little-endian. -/
def setUint32 (n : ℕ) : List ℕ :=
  [n % 256, n / 2 ^ 8 % 256, n / 2 ^ 16 % 256, n / 2 ^ 24 % 256]

/-- `view.setInt16(pos, i, true)`: the two bytes of the two's-complement
16-bit image of `i`, little-endian. -/
def setInt16 (i : ℤ) : List ℕ :=
  setUint16 (i % 65536).toNat

/-- The decoded audio buffer handed to `bufferToWav` (an `AudioBuffer`):
`samples i o` is channel `i` at frame `o` (`getChannelData(i)[o]`);
`frameCount` is `buffer.length`. -/
structure NarrationAudio where
  numberOfChannels : ℕ
  sampleRate : ℕ
  frameCount : ℕ
  samples : ℕ → ℕ → JSVal

/-- The interleaved 16-bit sample section written by the
`while (pos < length)` loop of `bufferToWav` (src/App.tsx lines 100-108):
for each frame, for each channel in order, the encoded sample bytes. -/
def wavData (b : NarrationAudio) : List ℕ :=
  (List.range b.frameCount).flatMap fun offset =>
    (List.range b.numberOfChannels).flatMap fun i =>
      setInt16 (encodeSample (b.samples i offset))

/-- The full byte output of `bufferToWav` (src/App.tsx lines 70-121),
written as the source's sequence of `setUint32`/`setUint16` header writes
followed by the sample loop.  `length` is the source's
`buffer.length * numOfChan * 2 + 44`; the data-chunk length field is
written as `length - pos - 4` with `pos = 40` at that point. -/
def bufferToWav (b : NarrationAudio) : List ℕ :=
  let numOfChan := b.numberOfChannels
  let length := b.frameCount * numOfChan * 2 + 44
  setUint32 0x46464952 ++ setUint32 (length - 8) ++ setUint32 0x45564157 ++
  setUint32 0x20746d66 ++ setUint32 16 ++ setUint16 1 ++ setUint16 numOfChan ++
  setUint32 b.sampleRate ++ setUint32 (b.sampleRate * 2 * numOfChan) ++
  setUint16 (numOfChan * 2) ++ setUint16 16 ++
  setUint32 0x61746164 ++ setUint32 (length - 40 - 4) ++
  wavData b

/-- The byte values of an ASCII tag, used to state header fields the way
the spec names them. -/
def asciiBytes (s : String) : List ℕ :=
  s.data.map Char.toNat

/-- The header layout exactly as the spec states it (spec section 4.2):
magic "RIFF", total length minus 8, "WAVE", "fmt " with length field 16,
format tag 1, channel count, sample rate, byte rate
`sampleRate * channelCount * 2`, block align `channelCount * 2`, bits per
sample 16, "data", data length `frameCount * channelCount * 2`, then the
interleaved samples. -/
def wavSpecBytes (b : NarrationAudio) : List ℕ :=
  asciiBytes "RIFF" ++
  setUint32 (44 + b.frameCount * b.numberOfChannels * 2 - 8) ++
  asciiBytes "WAVE" ++
  asciiBytes "fmt " ++
  setUint32 16 ++
  setUint16 1 ++
  setUint16 b.numberOfChannels ++
  setUint32 b.sampleRate ++
  setUint32 (b.sampleRate * b.numberOfChannels * 2) ++
  setUint16 (b.numberOfChannels * 2) ++
  setUint16 16 ++
  asciiBytes "data" ++
  setUint32 (b.frameCount * b.numberOfChannels * 2) ++
  wavData b

/-- The JavaScript `\s` whitespace class restricted to the ASCII escapes
that occur in narration text (space, tab, newline, carriage return,
vertical tab, form feed). -/
def isWS (c : Char) : Bool :=
  c == ' ' || c == '\t' || c == '\n' || c == '\r' || c == '\x0b' || c == '\x0c'

/-- JavaScript `String.prototype.split(/\s+/)` on a character list: tokens
between maximal whitespace runs, with a leading (resp. trailing) empty
token when the string starts (resp. ends) with whitespace, and a single
empty token for the empty string. -/
def splitWS (l : List Char) : List (List Char) :=
  let tok := l.takeWhile fun c => !isWS c
  match h : l.dropWhile (fun c => !isWS c) with
  | [] => [tok]
  | _ :: rest => tok :: splitWS (rest.dropWhile isWS)
termination_by l.length
decreasing_by
  have h1 : (l.dropWhile fun c => !isWS c).length ≤ l.length :=
    (List.dropWhile_sublist _).length_le
  have h2 : (rest.dropWhile isWS).length ≤ rest.length :=
    (List.dropWhile_sublist _).length_le
  have h3 := congrArg List.length h
  simp only [List.length_cons] at h3
  omega

/-- `slide.narration.split(/\s+/).length`. -/
def wordCount (s : String) : ℕ :=
  (splitWS s.data).length

/-- The per-slide duration estimate
`(slide.narration.split(/\s+/).length / averageWPM) * 60 * 1000` with
`averageWPM = 180` (src/App.tsx line 174; src/unnamed/part_001 lines
31-34), in milliseconds. -/
def slideDurationMs (narration : String) : ℚ :=
  ((wordCount narration : ℚ) / 180) * 60 * 1000

/-- The draw rectangle computed by `renderLoop` (src/App.tsx lines
196-208). -/
structure Rect where
  dx : ℚ
  dy : ℚ
  w : ℚ
  h : ℚ
deriving DecidableEq

/-- The Frame Compositor geometry of `renderLoop` (src/App.tsx lines
196-208): compare aspect ratios, size the draw rectangle, and center it. -/
def drawRect (canvasW canvasH imgW imgH : ℚ) : Rect :=
  let canvasAspect := canvasW / canvasH
  let imgAspect := imgW / imgH
  let wh : ℚ × ℚ :=
    if canvasAspect > imgAspect then (canvasH * imgAspect, canvasH)
    else (canvasW, canvasW / imgAspect)
  { dx := (canvasW - wh.1) / 2, dy := (canvasH - wh.2) / 2,
    w := wh.1, h := wh.2 }

/-- The per-slide duration list computed by the `useEffect` of
`PresentationViewer` (src/unnamed/part_001 lines 29-37). -/
def slideDurations (narrations : List String) : List ℚ :=
  narrations.map slideDurationMs

/-- The scheduling-relevant state of `PresentationViewer`
(src/unnamed/part_001): `currentSlideIndex` and `isPlaying` are the React
state hooks; `slideTimeout` is `slideTimeoutRef`, holding the remaining
delay of the pending advance when one is scheduled; `audioEnded` mirrors
`audio.ended`. -/
structure ViewerState where
  currentSlideIndex : ℕ
  isPlaying : Bool
  slideTimeout : Option ℚ
  audioEnded : Bool
deriving DecidableEq

/-- `scheduleNextSlide` (src/unnamed/part_001 lines 39-51): clear any
pending timeout; if `currentSlideIndex < slides.length - 1` schedule an
advance after the current slide's estimated duration, else stop playing.
The JavaScript comparison `i < length - 1` over integers is rendered as
`i + 1 < length`, which agrees with it for every `i ≥ 0` and
`length ≥ 0`. -/
def scheduleNextSlide (narrations : List String) (s : ViewerState) :
    ViewerState :=
  let s1 := { s with slideTimeout := none }
  let dur := (slideDurations narrations).getD s1.currentSlideIndex 0
  if s1.currentSlideIndex + 1 < narrations.length then
    { s1 with slideTimeout := some dur }
  else
    { s1 with isPlaying := false }

/-- The `useEffect` on `[isPlaying, currentSlideIndex]`
(src/unnamed/part_001 lines 53-65): while playing, (re)schedule the next
advance; otherwise clear the pending timeout. -/
def runEffect (narrations : List String) (s : ViewerState) : ViewerState :=
  if s.isPlaying then scheduleNextSlide narrations s
  else { s with slideTimeout := none }

/-- The pending timeout firing (src/unnamed/part_001 lines 45-47):
`setCurrentSlideIndex(prev => prev + 1)` consumes the timer, and the
effect re-runs on the new index. -/
def fireTimeout (narrations : List String) (s : ViewerState) : ViewerState :=
  runEffect narrations
    { s with currentSlideIndex := s.currentSlideIndex + 1,
             slideTimeout := none }

/-- `handlePlayPause` (src/unnamed/part_001 lines 67-81): pause stops
playback (the effect then clears the timer); play resets to slide 0 when
the audio has ended or the last slide is shown, then starts playback (the
effect then schedules).  `i === length - 1` over JavaScript integers is
rendered as `i + 1 = length`. -/
def handlePlayPause (narrations : List String) (s : ViewerState) :
    ViewerState :=
  if s.isPlaying then
    runEffect narrations { s with isPlaying := false }
  else
    let s1 := if s.audioEnded || (s.currentSlideIndex + 1 == narrations.length)
              then { s with currentSlideIndex := 0, audioEnded := false }
              else s
    runEffect narrations { s1 with isPlaying := true }

/-- The audio `ended` listener (src/unnamed/part_001 lines 87-90): stop
playing and show the last slide; the effect then clears the timer. -/
def handleAudioEnded (narrations : List String) (s : ViewerState) :
    ViewerState :=
  runEffect narrations
    { s with isPlaying := false,
             currentSlideIndex := narrations.length - 1,
             audioEnded := true }

/-- Wall-clock elapse on the viewer: repeatedly let the pending timeout
fire while its remaining delay fits in the elapsed span, counting the
firings; with no pending timeout nothing ever happens. -/
def elapseViewer (narrations : List String) (t : ℚ) (s : ViewerState) :
    ViewerState × ℕ :=
  match hpend : s.slideTimeout with
  | none => (s, 0)
  | some d =>
    if d ≤ t then
      let r := elapseViewer narrations (t - d) (fireTimeout narrations s)
      (r.1, r.2 + 1)
    else
      ({ s with slideTimeout := some (d - t) }, 0)
termination_by
  (if s.slideTimeout.isSome then 1 else 0) +
    (narrations.length - s.currentSlideIndex)
decreasing_by
  simp_wf
  rw [hpend]
  have hkey : ((fireTimeout narrations s).slideTimeout.isSome = true →
        s.currentSlideIndex + 2 ≤ narrations.length) ∧
      (fireTimeout narrations s).currentSlideIndex = s.currentSlideIndex + 1 := by
    simp only [fireTimeout, runEffect, scheduleNextSlide]
    split
    · split
      · simp_all
        omega
      · simp_all
    · simp
  rcases hkey with ⟨hk1, hk2⟩
  rw [hk2]
  by_cases hs : (fireTimeout narrations s).slideTimeout.isSome
  · have hle := hk1 hs
    simp [hs] <;> omega
  · simp only [Bool.not_eq_true] at hs
    simp [hs] <;> omega

/-- The scheduling-relevant state of the export session in `handleDownload`
(src/App.tsx lines 186-238): `currentSlideIndex` drives the render loop,
`slideIndex` is the closure variable of `startSlideShow`, `slideTimeout`
is the pending `slideTimeoutId` timer with its remaining delay,
`recorderRecording` is `recorder.state === "recording"`, and
`recorderStopCalls` counts calls to `recorder.stop()`. -/
structure ExportState where
  currentSlideIndex : ℕ
  slideIndex : ℕ
  slideTimeout : Option ℚ
  recorderRecording : Bool
  recorderStopCalls : ℕ
deriving DecidableEq

/-- `nextSlide` inside `startSlideShow` (src/App.tsx lines 217-224): if
`slideIndex >= generatedSlides.length` return; otherwise display slide
`slideIndex` and schedule the timeout for `slideDurations[slideIndex]`. -/
def exportNextSlide (durs : List ℚ) (len : ℕ) (s : ExportState) :
    ExportState :=
  if s.slideIndex ≥ len then s
  else
    { s with currentSlideIndex := s.slideIndex,
             slideTimeout := some (durs.getD s.slideIndex 0) }

/-- `startSlideShow` (src/App.tsx lines 215-226) applied to the session
right after `recorder.start()` and `audioSource.start()`. -/
def startSlideShow (durs : List ℚ) (len : ℕ) : ExportState :=
  exportNextSlide durs len
    { currentSlideIndex := 0, slideIndex := 0, slideTimeout := none,
      recorderRecording := true, recorderStopCalls := 0 }

/-- The export timeout callback (src/App.tsx lines 220-223):
`slideIndex++; nextSlide();`, the fired timer being consumed. -/
def fireExportTimeout (durs : List ℚ) (len : ℕ) (s : ExportState) :
    ExportState :=
  exportNextSlide durs len
    { s with slideIndex := s.slideIndex + 1, slideTimeout := none }

/-- `clearTimeout(slideTimeoutId)` in the `audioSource.onended` handler
(src/App.tsx line 233). -/
def clearSlideTimeout (s : ExportState) : ExportState :=
  { s with slideTimeout := none }

/-- `recorder.stop()` (src/App.tsx line 238). -/
def recorderStop (s : ExportState) : ExportState :=
  { s with recorderRecording := false,
           recorderStopCalls := s.recorderStopCalls + 1 }

/-- The audio end-of-playback handling of the export path (src/App.tsx
lines 231-238): the `onended` callback clears the pending slide timeout
and resolves the awaited promise, after which `recorder.stop()` runs. -/
def handleExportAudioEnded (s : ExportState) : ExportState :=
  recorderStop (clearSlideTimeout s)

/-- Wall-clock elapse on the export session, counting timeout firings. -/
def elapseExport (durs : List ℚ) (len : ℕ) (t : ℚ) (s : ExportState) :
    ExportState × ℕ :=
  match hpend : s.slideTimeout with
  | none => (s, 0)
  | some d =>
    if d ≤ t then
      let r := elapseExport durs len (t - d) (fireExportTimeout durs len s)
      (r.1, r.2 + 1)
    else
      ({ s with slideTimeout := some (d - t) }, 0)
termination_by
  (if s.slideTimeout.isSome then 1 else 0) + (len - s.slideIndex)
decreasing_by
  simp_wf
  rw [hpend]
  have hkey : ((fireExportTimeout durs len s).slideTimeout.isSome = true →
        s.slideIndex + 1 < len) ∧
      (fireExportTimeout durs len s).slideIndex = s.slideIndex + 1 := by
    simp only [fireExportTimeout, exportNextSlide]
    split <;> simp_all <;> omega
  rcases hkey with ⟨hk1, hk2⟩
  rw [hk2]
  by_cases hs : (fireExportTimeout durs len s).slideTimeout.isSome
  · have hle := hk1 hs
    simp [hs] <;> omega
  · simp only [Bool.not_eq_true] at hs
    simp [hs] <;> omega

/-- A JavaScript exception as seen by the catch block: an `Error` with a
message, or any other thrown value. -/
inductive JsError where
  | err : String → JsError
  | other : JsError

/-- `err instanceof Error ? err.message : "Failed to generate video."`
(src/App.tsx line 241). -/
def exportErrorMessage : JsError → String
  | .err m => m
  | .other => "Failed to generate video."

/-- The media resources `handleDownload` may have acquired before an
exception: the canvas capture stream, the audio context with its graph
nodes, and the pending slide timer. -/
structure ExportResources where
  videoStreamActive : Bool
  audioContextActive : Bool
  timerPending : Bool
deriving DecidableEq

/-- The user-facing state touched by the export error path. -/
structure ExportUI where
  error : Option String
  isDownloading : Bool
deriving DecidableEq

/-- The `catch`/`finally` of `handleDownload` (src/App.tsx lines 239-244):
`catch (err) { console.error(err); setError(...) } finally {
setIsDownloading(false) }`.  The resources are returned as they were:
no stream, audio-graph or timer release statement exists on this path. -/
def exportCatch (e : JsError) (res : ExportResources) (ui : ExportUI) :
    ExportResources × ExportUI :=
  (res, { error := some (exportErrorMessage e), isDownloading := false })

/-- Events that can reach the viewer scheduler: the pending timeout firing
(only possible when one is pending), the play/pause button, and the audio
`ended` event. -/
inductive VEvent where
  | fire : VEvent
  | playPause : VEvent
  | ended : VEvent

/-- One viewer event step: a `fire` happens only when a timeout is
actually pending. -/
def viewerStep (narrations : List String) (s : ViewerState) :
    VEvent → ViewerState
  | .fire => if s.slideTimeout.isSome then fireTimeout narrations s else s
  | .playPause => handlePlayPause narrations s
  | .ended => handleAudioEnded narrations s

/-- The viewer component's initial state (src/unnamed/part_001 lines
22-27): slide 0, not playing, no pending timeout. -/
def initViewer : ViewerState :=
  { currentSlideIndex := 0, isPlaying := false, slideTimeout := none,
    audioEnded := false }

/-- A viewer session: the initial state driven by a sequence of events. -/
def runViewer (narrations : List String) (evs : List VEvent) : ViewerState :=
  evs.foldl (viewerStep narrations) initViewer

/-- Events that can reach the export scheduler: the pending timeout firing
and the audio track's end of playback. -/
inductive EEvent where
  | fire : EEvent
  | ended : EEvent

/-- One export event step: a `fire` happens only when a timeout is
actually pending. -/
def exportStep (durs : List ℚ) (len : ℕ) (s : ExportState) :
    EEvent → ExportState
  | .fire => if s.slideTimeout.isSome then fireExportTimeout durs len s else s
  | .ended => handleExportAudioEnded s

/-- An export session: `startSlideShow` driven by a sequence of events. -/
def runExport (durs : List ℚ) (len : ℕ) (evs : List EEvent) : ExportState :=
  evs.foldl (exportStep durs len) (startSlideShow durs len)

theorem truncQ_le {q : ℚ} {z : ℤ} (h : q ≤ (z : ℚ)) : truncQ q ≤ z := by
  unfold truncQ
  split
  · calc ⌊q⌋ ≤ ⌊(z : ℚ)⌋ := Int.floor_le_floor h
      _ = z := Int.floor_intCast z
  · exact Int.ceil_le.mpr h

theorem le_truncQ {q : ℚ} {z : ℤ} (h : (z : ℚ) ≤ q) : z ≤ truncQ q := by
  unfold truncQ
  split
  · exact Int.le_floor.mpr h
  · calc z = ⌈(z : ℚ)⌉ := (Int.ceil_intCast z).symm
      _ ≤ ⌈q⌉ := Int.ceil_le_ceil h

theorem toInt32_eq_truncQ {q : ℚ} (h1 : -(2 ^ 31 : ℚ) ≤ q)
    (h2 : q ≤ (2 ^ 31 : ℚ) - 1) : toInt32 (.fin q) = truncQ q := by
  have hl : -(2 ^ 31) ≤ truncQ q := le_truncQ (by push_cast; linarith)
  have hu : truncQ q ≤ 2 ^ 31 - 1 := truncQ_le (by push_cast; linarith)
  rw [show toInt32 (.fin q) = (truncQ q + 2 ^ 31) % 2 ^ 32 - 2 ^ 31 from rfl]
  have hmod : (truncQ q + 2 ^ 31) % 2 ^ 32 = truncQ q + 2 ^ 31 :=
    Int.emod_eq_of_lt (by omega) (by omega)
  omega

theorem encodeSample_fin (q : ℚ) :
    encodeSample (.fin q) =
      (if 0 ≤ max (-1 : ℚ) (min 1 q) + 1 / 2
       then truncQ (max (-1 : ℚ) (min 1 q) * 32767)
       else truncQ (max (-1 : ℚ) (min 1 q) * 32768)) := by
  have hc1 : -1 ≤ max (-1 : ℚ) (min 1 q) := le_max_left _ _
  have hc2 : max (-1 : ℚ) (min 1 q) ≤ 1 :=
    max_le (by norm_num) (min_le_left _ _)
  unfold encodeSample jsMax jsMin jsAdd jsMul jsLtZero
  simp only
  by_cases hcond : (1 : ℚ) / 2 + max (-1) (min 1 q) < 0
  · rw [if_pos (by simpa using hcond), if_neg (by linarith)]
    exact toInt32_eq_truncQ (by nlinarith) (by nlinarith)
  · rw [if_neg (by simpa using hcond), if_pos (by linarith)]
    exact toInt32_eq_truncQ (by nlinarith) (by nlinarith)

/-- C1: for every input sample, the PCM-to-Container Encoder first clamps
the value to [-1, 1], scales by 32767 when the clamped value plus 0.5 is
nonnegative and by 32768 otherwise, and truncates toward zero to a 16-bit
signed integer; in particular 1.0 encodes to 32767 (so decoding by
dividing by 32768 yields 32767/32768, not 1.0) and 0.0 encodes to 0. -/
theorem pcm_sample_conversion :
    (∀ q : ℚ, encodeSample (.fin q) =
        (if 0 ≤ max (-1 : ℚ) (min 1 q) + 1 / 2
         then truncQ (max (-1 : ℚ) (min 1 q) * 32767)
         else truncQ (max (-1 : ℚ) (min 1 q) * 32768))) ∧
    encodeSample (.fin 1) = 32767 ∧
    encodeSample (.fin 0) = 0 ∧
    ((encodeSample (.fin 1) : ℚ) / 32768 ≠ 1) := by
  have h1 : encodeSample (.fin 1) = 32767 := by
    rw [encodeSample_fin]
    norm_num [truncQ, min_def, max_def]
  have h0 : encodeSample (.fin 0) = 0 := by
    rw [encodeSample_fin]
    norm_num [truncQ, min_def, max_def]
  refine ⟨encodeSample_fin, h1, h0, ?_⟩
  rw [h1]
  norm_num

/-- C10: sample conversion is total and never overflows 16 bits: every
input, including out-of-range values and NaN, encodes into
[-32768, 32767]; values above 1 encode like 1.0, values below -1 encode
like -1.0, and NaN encodes to 0. -/
theorem pcm_sample_total_range :
    (∀ x : JSVal, -32768 ≤ encodeSample x ∧ encodeSample x ≤ 32767) ∧
    (∀ q : ℚ, 1 < q → encodeSample (.fin q) = encodeSample (.fin 1)) ∧
    (∀ q : ℚ, q < -1 → encodeSample (.fin q) = encodeSample (.fin (-1))) ∧
    encodeSample .nan = 0 := by
  refine ⟨?_, ?_, ?_, rfl⟩
  · intro x
    match x with
    | .nan =>
      rw [show encodeSample JSVal.nan = 0 from rfl]
      exact ⟨by norm_num, by norm_num⟩
    | .fin q =>
      rw [encodeSample_fin]
      have hc1 : -1 ≤ max (-1 : ℚ) (min 1 q) := le_max_left _ _
      have hc2 : max (-1 : ℚ) (min 1 q) ≤ 1 :=
        max_le (by norm_num) (min_le_left _ _)
      split
      · constructor
        · exact le_truncQ (by push_cast; nlinarith)
        · exact truncQ_le (by push_cast; nlinarith)
      · constructor
        · exact le_truncQ (by push_cast; nlinarith)
        · exact truncQ_le (by push_cast; nlinarith)
  · intro q hq
    rw [encodeSample_fin, encodeSample_fin, min_eq_left hq.le, min_self]
  · intro q hq
    have hcl : max (-1 : ℚ) (min 1 q) = -1 := by
      rw [min_eq_right (by linarith)]
      exact max_eq_left (by linarith)
    have hcr : max (-1 : ℚ) (min 1 (-1 : ℚ)) = -1 := by norm_num
    rw [encodeSample_fin, encodeSample_fin, hcl, hcr]

theorem pcm_sample_total_range_witness :
    (-32768 ≤ encodeSample (.fin 2) ∧ encodeSample (.fin 2) ≤ 32767) ∧
    encodeSample (.fin 2) = encodeSample (.fin 1) ∧
    encodeSample (.fin (-2)) = encodeSample (.fin (-1)) :=
  ⟨pcm_sample_total_range.1 (.fin 2),
   pcm_sample_total_range.2.1 2 (by norm_num),
   pcm_sample_total_range.2.2.1 (-2) (by norm_num)⟩

theorem flatMap_range_const_length (f : ℕ → List ℕ) (c : ℕ)
    (h : ∀ k, (f k).length = c) (n : ℕ) :
    ((List.range n).flatMap f).length = n * c := by
  induction n with
  | zero => simp
  | succ m ih =>
    rw [List.range_succ, List.flatMap_append, List.length_append, ih]
    simp [h, Nat.succ_mul]

theorem wavData_length (b : NarrationAudio) :
    (wavData b).length = b.frameCount * (b.numberOfChannels * 2) := by
  unfold wavData
  apply flatMap_range_const_length
  intro k
  apply flatMap_range_const_length
  intro i
  rfl

theorem riff_tag : setUint32 0x46464952 = asciiBytes "RIFF" := by decide
theorem wave_tag : setUint32 0x45564157 = asciiBytes "WAVE" := by decide
theorem fmt_tag : setUint32 0x20746d66 = asciiBytes "fmt " := by decide
theorem data_tag : setUint32 0x61746164 = asciiBytes "data" := by decide

/-- C2: the encoder output is exactly 44 plus frameCount times channelCount
times 2 bytes and consists of the little-endian header the spec lists
(RIFF magic, total length minus 8, WAVE, fmt-chunk of declared size 16,
PCM format tag 1, channel count, sample rate, byte rate, block align,
16 bits per sample, data chunk with its byte length) followed by the
interleaved samples. -/
theorem wav_container_layout (b : NarrationAudio) :
    bufferToWav b = wavSpecBytes b ∧
    (bufferToWav b).length = 44 + b.frameCount * b.numberOfChannels * 2 := by
  have e1 : b.frameCount * b.numberOfChannels * 2 + 44 - 8 =
      44 + b.frameCount * b.numberOfChannels * 2 - 8 := by omega
  have e2 : b.sampleRate * 2 * b.numberOfChannels =
      b.sampleRate * b.numberOfChannels * 2 := by ring
  have e3 : b.frameCount * b.numberOfChannels * 2 + 44 - 40 - 4 =
      b.frameCount * b.numberOfChannels * 2 := by omega
  constructor
  · simp only [bufferToWav, wavSpecBytes]
    rw [e1, e2, e3, riff_tag, wave_tag, fmt_tag, data_tag]
  · simp only [bufferToWav]
    simp only [List.length_append, setUint32, setUint16, List.length_cons,
      List.length_nil, wavData_length]
    ring

theorem splitWS_ne_nil (l : List Char) : splitWS l ≠ [] := by
  rw [splitWS.eq_def]
  simp only
  split <;> simp

theorem one_le_wordCount (s : String) : 1 ≤ wordCount s := by
  have h := splitWS_ne_nil s.data
  unfold wordCount
  have h2 : 0 < (splitWS s.data).length := List.length_pos.mpr h
  omega

theorem wordCount_empty : wordCount "" = 1 := by
  have hdata : "".data = ([] : List Char) := rfl
  have h : splitWS [] = [[]] := by
    rw [splitWS.eq_def]
    simp
  unfold wordCount
  rw [hdata, h]
  rfl

/-- C5: the Duration Estimator returns
max(1, wordCount(text)) / 180 * 60000 milliseconds, where wordCount is the
number of tokens of the whitespace split; the result is always strictly
positive, and the empty narration has wordCount 1 (splitting the empty
string yields one empty token), giving a non-zero minimum duration. -/
theorem duration_estimator_formula (s : String) :
    slideDurationMs s = ((max 1 (wordCount s) : ℕ) : ℚ) / 180 * 60000 ∧
    0 < slideDurationMs s ∧
    wordCount "" = 1 := by
  have hpos : 1 ≤ wordCount s := one_le_wordCount s
  have hmax : max 1 (wordCount s) = wordCount s := max_eq_right hpos
  have hcast : (1 : ℚ) ≤ (wordCount s : ℚ) := by exact_mod_cast hpos
  refine ⟨?_, ?_, wordCount_empty⟩
  · rw [hmax]
    unfold slideDurationMs
    ring
  · unfold slideDurationMs
    linarith


theorem drawRect_pos_branch {W H iw ih : ℚ} (hA : W / H > iw / ih) :
    drawRect W H iw ih =
      { dx := (W - H * (iw / ih)) / 2, dy := (H - H) / 2,
        w := H * (iw / ih), h := H } := by
  simp [drawRect, if_pos hA]

theorem drawRect_neg_branch {W H iw ih : ℚ} (hA : ¬ W / H > iw / ih) :
    drawRect W H iw ih =
      { dx := (W - W) / 2, dy := (H - W / (iw / ih)) / 2,
        w := W, h := W / (iw / ih) } := by
  simp [drawRect, if_neg hA]

/-- C6 counterexample: with canvas 1280x720 and an image of the identical
aspect ratio 1280x720 (all dimensions positive), both offsets are zero,
so it is false that exactly one of the horizontal and vertical offsets
is zero. -/
theorem compositor_equal_aspect_counterexample :
    (drawRect 1280 720 1280 720).dx = 0 ∧ (drawRect 1280 720 1280 720).dy = 0 := by
  norm_num [drawRect]

/-- C6 (amended): for positive canvas and image dimensions the draw
rectangle lies inside the canvas, is centered on both axes, and at least
one of the two offsets is zero; exactly one is zero whenever the canvas
and image aspect ratios differ, and both are zero whenever the ratios
coincide. -/
theorem compositor_in_bounds (W H iw ih : ℚ) (hW : 0 < W) (hH : 0 < H)
    (hiw : 0 < iw) (hih : 0 < ih) :
    0 ≤ (drawRect W H iw ih).dx ∧
    (drawRect W H iw ih).dx + (drawRect W H iw ih).w ≤ W ∧
    0 ≤ (drawRect W H iw ih).dy ∧
    (drawRect W H iw ih).dy + (drawRect W H iw ih).h ≤ H ∧
    (drawRect W H iw ih).dx = (W - (drawRect W H iw ih).w) / 2 ∧
    (drawRect W H iw ih).dy = (H - (drawRect W H iw ih).h) / 2 ∧
    ((drawRect W H iw ih).dx = 0 ∨ (drawRect W H iw ih).dy = 0) ∧
    (W / H ≠ iw / ih →
      ((drawRect W H iw ih).dx = 0 ↔ ¬ (drawRect W H iw ih).dy = 0)) ∧
    (W / H = iw / ih →
      (drawRect W H iw ih).dx = 0 ∧ (drawRect W H iw ih).dy = 0) := by
  have hApos : 0 < iw / ih := div_pos hiw hih
  by_cases hA : W / H > iw / ih
  · have hwlt : H * (iw / ih) < W := by
      have h1 : H * (iw / ih) < H * (W / H) := mul_lt_mul_of_pos_left hA hH
      have h2 : H * (W / H) = W := by field_simp
      linarith
    rw [drawRect_pos_branch hA]
    dsimp only
    refine ⟨by linarith, by linarith, by linarith, by linarith, rfl, rfl,
            Or.inr (by ring), fun _ => ?_,
            fun heq => absurd heq (ne_of_gt hA)⟩
    have hdxpos : (0 : ℚ) < (W - H * (iw / ih)) / 2 := by linarith
    constructor
    · intro hzero
      exact absurd hzero (ne_of_gt hdxpos)
    · intro hne
      exact absurd (by ring) hne
  · have hle : W / H ≤ iw / ih := not_lt.mp hA
    have hhle : W / (iw / ih) ≤ H := by
      rw [div_le_iff hApos]
      have h1 : W ≤ (iw / ih) * H := (div_le_iff hH).mp hle
      linarith
    rw [drawRect_neg_branch hA]
    dsimp only
    refine ⟨by linarith, by linarith, by linarith, by linarith, rfl, rfl,
            Or.inl (by ring), fun hne => ?_, fun heq => ?_⟩
    · have hlt : W / H < iw / ih := lt_of_le_of_ne hle hne
      have hhlt : W / (iw / ih) < H := by
        rw [div_lt_iff hApos]
        have h1 : W < (iw / ih) * H := (div_lt_iff hH).mp hlt
        linarith
      have hdypos : (0 : ℚ) < (H - W / (iw / ih)) / 2 := by linarith
      constructor
      · intro _
        exact ne_of_gt hdypos
      · intro _
        ring
    · have hWne : W ≠ 0 := ne_of_gt hW
      have hHne : H ≠ 0 := ne_of_gt hH
      have hWH : W / (iw / ih) = H := by
        rw [← heq, div_div_eq_mul_div, mul_comm, mul_div_assoc,
            div_self hWne, mul_one]
      refine ⟨by ring, ?_⟩
      rw [hWH]
      ring

theorem compositor_in_bounds_witness :
    0 ≤ (drawRect 1280 720 100 200).dx ∧
    (drawRect 1280 720 100 200).dx + (drawRect 1280 720 100 200).w ≤ 1280 ∧
    0 ≤ (drawRect 1280 720 100 200).dy ∧
    (drawRect 1280 720 100 200).dy + (drawRect 1280 720 100 200).h ≤ 720 ∧
    (drawRect 1280 720 100 200).dx = (1280 - (drawRect 1280 720 100 200).w) / 2 ∧
    (drawRect 1280 720 100 200).dy = (720 - (drawRect 1280 720 100 200).h) / 2 ∧
    ((drawRect 1280 720 100 200).dx = 0 ∨ (drawRect 1280 720 100 200).dy = 0) ∧
    ((1280 : ℚ) / 720 ≠ 100 / 200 →
      ((drawRect 1280 720 100 200).dx = 0 ↔
        ¬ (drawRect 1280 720 100 200).dy = 0)) ∧
    ((1280 : ℚ) / 720 = 100 / 200 →
      (drawRect 1280 720 100 200).dx = 0 ∧
        (drawRect 1280 720 100 200).dy = 0) :=
  compositor_in_bounds 1280 720 100 200 (by norm_num) (by norm_num)
    (by norm_num) (by norm_num)

/-- C7: the compositor selects the scaled draw size by comparing aspect
ratios: when the canvas aspect ratio is strictly greater than the image
aspect ratio the draw height is the canvas height and the draw width is
that height times the image aspect (pillarboxing); otherwise the draw
width is the canvas width and the draw height is that width divided by
the image aspect (letterboxing). -/
theorem compositor_aspect_selection (W H iw ih : ℚ) :
    (W / H > iw / ih →
      (drawRect W H iw ih).h = H ∧
      (drawRect W H iw ih).w = H * (iw / ih)) ∧
    (¬ W / H > iw / ih →
      (drawRect W H iw ih).w = W ∧
      (drawRect W H iw ih).h = W / (iw / ih)) := by
  constructor
  · intro h
    rw [drawRect_pos_branch h]
    exact ⟨rfl, rfl⟩
  · intro h
    rw [drawRect_neg_branch h]
    exact ⟨rfl, rfl⟩

theorem compositor_aspect_selection_witness :
    (drawRect 1280 720 100 100).h = 720 ∧
    (drawRect 1280 720 100 100).w = 720 * ((100 : ℚ) / 100) :=
  (compositor_aspect_selection 1280 720 100 100).1 (by norm_num)

theorem elapseViewer_none {narrations : List String} {t : ℚ}
    {s : ViewerState} (h : s.slideTimeout = none) :
    elapseViewer narrations t s = (s, 0) := by
  rw [elapseViewer.eq_def]
  split
  · rfl
  · simp_all

theorem handlePlayPause_pause {narrations : List String} {s : ViewerState}
    (h : s.isPlaying = true) :
    handlePlayPause narrations s =
      { s with isPlaying := false, slideTimeout := none } := by
  unfold handlePlayPause runEffect
  simp [h]

theorem handleAudioEnded_clears (narrations : List String) (s : ViewerState) :
    (handleAudioEnded narrations s).slideTimeout = none := by
  unfold handleAudioEnded runEffect
  simp

theorem handlePlayPause_ignores_timer (narrations : List String)
    (s : ViewerState) :
    handlePlayPause narrations s =
      handlePlayPause narrations { s with slideTimeout := none } := by
  unfold handlePlayPause runEffect scheduleNextSlide
  by_cases hp : s.isPlaying <;>
    by_cases he : (s.audioEnded || (s.currentSlideIndex + 1 == narrations.length)) = true <;>
      simp [hp, he]

theorem handleAudioEnded_ignores_timer (narrations : List String)
    (s : ViewerState) :
    handleAudioEnded narrations s =
      handleAudioEnded narrations { s with slideTimeout := none } := by
  unfold handleAudioEnded runEffect scheduleNextSlide
  simp

/-- C3: in the timer-driven scheduler, any explicit pause, stop or index
reset cancels the pending delayed advance: pausing leaves no pending
timeout, the audio-ended stop leaves no pending timeout, elapsing any
amount of wall-clock time after a pause produces zero scheduled-advance
firings and leaves the slide index unchanged, and no handler outcome
depends on a previously pending timer (the stale advance can never fire
once the state has moved on). -/
theorem viewer_cancel_no_stale_advance (narrations : List String)
    (s : ViewerState) (t : ℚ) (hplay : s.isPlaying = true) :
    (handlePlayPause narrations s).slideTimeout = none ∧
    (handleAudioEnded narrations s).slideTimeout = none ∧
    elapseViewer narrations t (handlePlayPause narrations s) =
      (handlePlayPause narrations s, 0) ∧
    (elapseViewer narrations t (handlePlayPause narrations s)).1.currentSlideIndex
      = s.currentSlideIndex ∧
    (∀ s2 : ViewerState,
      handlePlayPause narrations s2 =
        handlePlayPause narrations { s2 with slideTimeout := none } ∧
      handleAudioEnded narrations s2 =
        handleAudioEnded narrations { s2 with slideTimeout := none }) := by
  have hpp := @handlePlayPause_pause narrations s hplay
  have hnone : (handlePlayPause narrations s).slideTimeout = none := by
    rw [hpp]
  have helapse := @elapseViewer_none narrations t _ hnone
  refine ⟨hnone, handleAudioEnded_clears narrations s, helapse, ?_, ?_⟩
  · rw [helapse, hpp]
  · intro s2
    exact ⟨handlePlayPause_ignores_timer narrations s2,
           handleAudioEnded_ignores_timer narrations s2⟩

theorem viewer_cancel_no_stale_advance_witness :
    (handlePlayPause ["hello world", "two words here", "end"]
        { currentSlideIndex := 1, isPlaying := true,
          slideTimeout := some 300, audioEnded := false }).slideTimeout = none ∧
    (handleAudioEnded ["hello world", "two words here", "end"]
        { currentSlideIndex := 1, isPlaying := true,
          slideTimeout := some 300, audioEnded := false }).slideTimeout = none ∧
    elapseViewer ["hello world", "two words here", "end"] 99999
        (handlePlayPause ["hello world", "two words here", "end"]
          { currentSlideIndex := 1, isPlaying := true,
            slideTimeout := some 300, audioEnded := false }) =
      (handlePlayPause ["hello world", "two words here", "end"]
          { currentSlideIndex := 1, isPlaying := true,
            slideTimeout := some 300, audioEnded := false }, 0) ∧
    (elapseViewer ["hello world", "two words here", "end"] 99999
        (handlePlayPause ["hello world", "two words here", "end"]
          { currentSlideIndex := 1, isPlaying := true,
            slideTimeout := some 300, audioEnded := false })).1.currentSlideIndex
      = 1 ∧
    (∀ s2 : ViewerState,
      handlePlayPause ["hello world", "two words here", "end"] s2 =
        handlePlayPause ["hello world", "two words here", "end"]
          { s2 with slideTimeout := none } ∧
      handleAudioEnded ["hello world", "two words here", "end"] s2 =
        handleAudioEnded ["hello world", "two words here", "end"]
          { s2 with slideTimeout := none }) :=
  viewer_cancel_no_stale_advance ["hello world", "two words here", "end"]
    { currentSlideIndex := 1, isPlaying := true, slideTimeout := some 300,
      audioEnded := false } 99999 rfl

theorem elapseExport_none {durs : List ℚ} {len : ℕ} {t : ℚ}
    {s : ExportState} (h : s.slideTimeout = none) :
    elapseExport durs len t s = (s, 0) := by
  rw [elapseExport.eq_def]
  split
  · rfl
  · simp_all

/-- C4: during export, the audio track's end-of-playback event cancels the
pending scheduled advance before the recorder is stopped, triggers exactly
one recorder-stop call, and no scheduled slide advance can fire afterward
no matter how much time elapses — the slide index stays where it was. -/
theorem export_audio_ended_stops_once (durs : List ℚ) (len : ℕ) (t : ℚ)
    (s : ExportState) (h : s.recorderStopCalls = 0) :
    handleExportAudioEnded s = recorderStop (clearSlideTimeout s) ∧
    (handleExportAudioEnded s).recorderStopCalls = 1 ∧
    (handleExportAudioEnded s).slideTimeout = none ∧
    elapseExport durs len t (handleExportAudioEnded s) =
      (handleExportAudioEnded s, 0) ∧
    (elapseExport durs len t (handleExportAudioEnded s)).1.currentSlideIndex
      = s.currentSlideIndex := by
  have hnone : (handleExportAudioEnded s).slideTimeout = none := rfl
  have helapse :=
    @elapseExport_none durs len t _ hnone
  refine ⟨rfl, ?_, hnone, helapse, ?_⟩
  · unfold handleExportAudioEnded recorderStop clearSlideTimeout
    simp [h]
  · rw [helapse]
    rfl

theorem export_audio_ended_stops_once_witness :
    handleExportAudioEnded
        { currentSlideIndex := 2, slideIndex := 2, slideTimeout := some 700,
          recorderRecording := true, recorderStopCalls := 0 } =
      recorderStop (clearSlideTimeout
        { currentSlideIndex := 2, slideIndex := 2, slideTimeout := some 700,
          recorderRecording := true, recorderStopCalls := 0 }) ∧
    (handleExportAudioEnded
        { currentSlideIndex := 2, slideIndex := 2, slideTimeout := some 700,
          recorderRecording := true, recorderStopCalls := 0 }).recorderStopCalls
      = 1 ∧
    (handleExportAudioEnded
        { currentSlideIndex := 2, slideIndex := 2, slideTimeout := some 700,
          recorderRecording := true, recorderStopCalls := 0 }).slideTimeout
      = none ∧
    elapseExport [500, 700, 900, 1100, 1300] 5 123456
        (handleExportAudioEnded
          { currentSlideIndex := 2, slideIndex := 2, slideTimeout := some 700,
            recorderRecording := true, recorderStopCalls := 0 }) =
      (handleExportAudioEnded
        { currentSlideIndex := 2, slideIndex := 2, slideTimeout := some 700,
          recorderRecording := true, recorderStopCalls := 0 }, 0) ∧
    (elapseExport [500, 700, 900, 1100, 1300] 5 123456
        (handleExportAudioEnded
          { currentSlideIndex := 2, slideIndex := 2, slideTimeout := some 700,
            recorderRecording := true,
            recorderStopCalls := 0 })).1.currentSlideIndex = 2 :=
  export_audio_ended_stops_once [500, 700, 900, 1100, 1300] 5 123456
    { currentSlideIndex := 2, slideIndex := 2, slideTimeout := some 700,
      recorderRecording := true, recorderStopCalls := 0 } rfl

theorem scheduleNextSlide_inv (narrations : List String) (s : ViewerState) :
    (scheduleNextSlide narrations s).currentSlideIndex = s.currentSlideIndex ∧
    ((scheduleNextSlide narrations s).slideTimeout.isSome = true →
      s.currentSlideIndex + 1 < narrations.length) := by
  unfold scheduleNextSlide
  dsimp only
  split <;> simp_all

theorem runEffect_inv (narrations : List String) (s : ViewerState) :
    (runEffect narrations s).currentSlideIndex = s.currentSlideIndex ∧
    ((runEffect narrations s).slideTimeout.isSome = true →
      s.currentSlideIndex + 1 < narrations.length) := by
  unfold runEffect
  split
  · exact scheduleNextSlide_inv narrations s
  · simp

theorem runEffect_bound (narrations : List String) (s : ViewerState)
    (h : s.currentSlideIndex < narrations.length) :
    (runEffect narrations s).currentSlideIndex < narrations.length ∧
      ((runEffect narrations s).slideTimeout.isSome = true →
        (runEffect narrations s).currentSlideIndex + 1 <
          narrations.length) := by
  have hre := runEffect_inv narrations s
  constructor
  · rw [hre.1]
    exact h
  · intro hp
    rw [hre.1]
    exact hre.2 hp

theorem viewerStep_preserves_inv (narrations : List String)
    (hlen : 0 < narrations.length) (s : ViewerState)
    (h1 : s.currentSlideIndex < narrations.length)
    (h2 : s.slideTimeout.isSome = true →
      s.currentSlideIndex + 1 < narrations.length) (e : VEvent) :
    (viewerStep narrations s e).currentSlideIndex < narrations.length ∧
      ((viewerStep narrations s e).slideTimeout.isSome = true →
        (viewerStep narrations s e).currentSlideIndex + 1 <
          narrations.length) := by
  cases e with
  | fire =>
    simp only [viewerStep]
    split
    · next hp =>
      have hidx := h2 hp
      unfold fireTimeout
      exact runEffect_bound narrations
        { s with currentSlideIndex := s.currentSlideIndex + 1,
                 slideTimeout := none } hidx
    · exact ⟨h1, h2⟩
  | playPause =>
    simp only [viewerStep]
    unfold handlePlayPause
    split
    · exact runEffect_bound narrations { s with isPlaying := false } h1
    · dsimp only
      split
      · exact runEffect_bound narrations
          { s with currentSlideIndex := 0, audioEnded := false,
                   isPlaying := true } hlen
      · exact runEffect_bound narrations { s with isPlaying := true } h1
  | ended =>
    simp only [viewerStep]
    unfold handleAudioEnded
    exact runEffect_bound narrations
      { s with isPlaying := false,
               currentSlideIndex := narrations.length - 1,
               audioEnded := true }
      (show narrations.length - 1 < narrations.length by omega)

theorem foldl_viewerStep_inv (narrations : List String)
    (hlen : 0 < narrations.length) (evs : List VEvent) (s : ViewerState)
    (h1 : s.currentSlideIndex < narrations.length)
    (h2 : s.slideTimeout.isSome = true →
      s.currentSlideIndex + 1 < narrations.length) :
    (evs.foldl (viewerStep narrations) s).currentSlideIndex <
      narrations.length := by
  induction evs generalizing s with
  | nil => exact h1
  | cons e rest ih =>
    have hstep := viewerStep_preserves_inv narrations hlen s h1 h2 e
    exact ih (viewerStep narrations s e) hstep.1 hstep.2

theorem exportStep_preserves_inv (durs : List ℚ) (len : ℕ) (s : ExportState)
    (h1 : s.currentSlideIndex < len)
    (h2 : s.slideTimeout.isSome = true → s.slideIndex < len) (e : EEvent) :
    (exportStep durs len s e).currentSlideIndex < len ∧
      ((exportStep durs len s e).slideTimeout.isSome = true →
        (exportStep durs len s e).slideIndex < len) := by
  cases e with
  | fire =>
    simp only [exportStep]
    split
    · next hp =>
      unfold fireExportTimeout exportNextSlide
      dsimp only
      split <;> simp_all
    · exact ⟨h1, h2⟩
  | ended =>
    simp only [exportStep]
    unfold handleExportAudioEnded recorderStop clearSlideTimeout
    exact ⟨h1, by simp⟩

theorem foldl_exportStep_inv (durs : List ℚ) (len : ℕ) (evs : List EEvent)
    (s : ExportState) (h1 : s.currentSlideIndex < len)
    (h2 : s.slideTimeout.isSome = true → s.slideIndex < len) :
    (evs.foldl (exportStep durs len) s).currentSlideIndex < len := by
  induction evs generalizing s with
  | nil => exact h1
  | cons e rest ih =>
    have hstep := exportStep_preserves_inv durs len s h1 h2 e
    exact ih (exportStep durs len s e) hstep.1 hstep.2

/-- C9: over a non-empty slide sequence, both schedulers keep the current
slide index in [0, slideCount) at all times: the viewer session and the
export session start at slide 0 and after every possible sequence of
events (timer firings, play/pause presses, audio end) the index is still
strictly below the slide count. -/
theorem slide_index_in_range (narrations : List String) (durs : List ℚ)
    (len : ℕ) (evs : List VEvent) (evs2 : List EEvent)
    (hlen1 : 0 < narrations.length) (hlen2 : 0 < len) :
    initViewer.currentSlideIndex = 0 ∧
    (startSlideShow durs len).currentSlideIndex = 0 ∧
    (runViewer narrations evs).currentSlideIndex < narrations.length ∧
    (runExport durs len evs2).currentSlideIndex < len := by
  have hstart : startSlideShow durs len =
      { currentSlideIndex := 0, slideIndex := 0,
        slideTimeout := some (durs.getD 0 0), recorderRecording := true,
        recorderStopCalls := 0 } := by
    unfold startSlideShow exportNextSlide
    simp [Nat.not_le.mpr hlen2]
  refine ⟨rfl, ?_, ?_, ?_⟩
  · rw [hstart]
  · exact foldl_viewerStep_inv narrations hlen1 evs initViewer hlen1
      (by simp [initViewer])
  · unfold runExport
    refine foldl_exportStep_inv durs len evs2 (startSlideShow durs len) ?_ ?_
    · rw [hstart]
      exact hlen2
    · intro _
      rw [hstart]
      exact hlen2

theorem slide_index_in_range_witness :
    initViewer.currentSlideIndex = 0 ∧
    (startSlideShow [10000] 1).currentSlideIndex = 0 ∧
    (runViewer ["one two three"] [VEvent.playPause, VEvent.fire,
      VEvent.ended]).currentSlideIndex < 1 ∧
    (runExport [10000] 1 [EEvent.fire, EEvent.ended]).currentSlideIndex < 1 :=
  slide_index_in_range ["one two three"] [10000] 1
    [VEvent.playPause, VEvent.fire, VEvent.ended] [EEvent.fire, EEvent.ended]
    (by norm_num) (by norm_num)

/-- C8 counterexample: when an exception aborts the export while the
capture stream, the audio context and a slide timer are all acquired, the
catch/finally path surfaces its single error message but leaves every one
of those resources still acquired — refuting the claim that every
partially acquired media resource is released before the error
propagates. -/
theorem export_error_leaks_resources :
    (exportCatch .other
        { videoStreamActive := true, audioContextActive := true,
          timerPending := true }
        { error := none, isDownloading := true }).1.videoStreamActive
      = true ∧
    (exportCatch .other
        { videoStreamActive := true, audioContextActive := true,
          timerPending := true }
        { error := none, isDownloading := true }).1.audioContextActive
      = true ∧
    (exportCatch .other
        { videoStreamActive := true, audioContextActive := true,
          timerPending := true }
        { error := none, isDownloading := true }).1.timerPending = true ∧
    (exportCatch .other
        { videoStreamActive := true, audioContextActive := true,
          timerPending := true }
        { error := none, isDownloading := true }).2.error
      = some "Failed to generate video." :=
  ⟨rfl, rfl, rfl, rfl⟩

/-- C8 (amended): any exception during export aborts the whole export with
no retry and surfaces exactly one human-readable user-facing message (the
thrown Error's message, or a fixed fallback), and the downloading flag is
reset; however the error path releases none of the partially acquired
media resources — streams, audio graph nodes and timers are left exactly
as they were. -/
theorem export_error_single_message (e : JsError) (res : ExportResources)
    (ui : ExportUI) :
    (exportCatch e res ui).2.error = some (exportErrorMessage e) ∧
    (exportCatch e res ui).2.isDownloading = false ∧
    (exportCatch e res ui).1 = res :=
  ⟨rfl, rfl, rfl⟩
